import Mathlib

set_option maxRecDepth 100000

/-!
Verification development for a minimal RISC-V Sv39 supervisor-mode kernel.

The definitions below are a shallow embedding, translated function by
function from the kernel sources:

  * common/src/lib.rs        (syscall numbering, oct2int)
  * kernel/src/trap.rs       (trap dispatch, syscall handler, trap entry stub)
  * kernel/src/allocator.rs  (bump allocator)
  * kernel/src/memory.rs     (Sv39 page-table walk and map_page)
  * kernel/src/process.rs    (scheduler find_next_process)
  * kernel/src/virtio.rs     (block-device handshake, disk_read, disk_write)
  * tarfile/src/lib.rs       (TAR stream parser)

Machine integers are modelled as Nat with explicit truncation where the
source truncates; panics and fallible operations are modelled with
Except/Option.  Raw-pointer memory is modelled as explicit stores
(Nat-indexed functions) threaded through the operations.
-/

/-! ## common/src/lib.rs : canonical syscall numbering and oct2int -/

/-- The Syscall enum of common/src/lib.rs. -/
inductive Syscall where
  | PUTCHAR
  | GETCHAR
  | EXIT
  deriving DecidableEq

/-- Into u64 for Syscall (common/src/lib.rs): the canonical numbering. -/
def Syscall.intoU64 : Syscall → Nat
  | .PUTCHAR => 1
  | .GETCHAR => 2
  | .EXIT => 3

/-- TryFrom u64 for Syscall (common/src/lib.rs). -/
def Syscall.tryFromU64 (value : Nat) : Except Nat Syscall :=
  match value with
  | 1 => .ok .PUTCHAR
  | 2 => .ok .GETCHAR
  | 3 => .ok .EXIT
  | _ => .error value

/-- Helper of oct2int (common/src/lib.rs): fold octal ASCII digits,
stopping at the first byte outside 48..55. -/
def oct2intAux (dec : Nat) : List Nat → Nat
  | [] => dec
  | c :: rest => if c < 48 ∨ 55 < c then dec else oct2intAux (dec * 8 + (c - 48)) rest

/-- oct2int (common/src/lib.rs). -/
def oct2int (oct : List Nat) : Nat := oct2intAux 0 oct

/-! ## kernel/src/trap.rs : high-level dispatch and syscall handler -/

/-- Observable effect of handle_syscall (kernel/src/trap.rs), keyed on the
value of frame.x13; x10 is the first syscall argument. -/
inductive SyscallAction where
  | putcharA (byte : Nat)
  | getcharA
  | panicUnknownSyscall (num : Nat)
  deriving DecidableEq

/-- The match on frame.x13 inside handle_syscall (kernel/src/trap.rs):
3 emits the byte in x10 via SBI putchar, 2 performs cooperative getchar,
anything else panics.  The putchar argument is x10 cast to u8. -/
def handleSyscallDispatch (x13 x10 : Nat) : SyscallAction :=
  match x13 with
  | 3 => .putcharA (x10 % 256)
  | 2 => .getcharA
  | other => .panicUnknownSyscall other

/-- Result of the scause match in trap_handler (kernel/src/trap.rs):
cause 8 reaches the syscall handler, every other decoded cause panics. -/
inductive TrapAction where
  | syscallDispatch
  | panicTrap (msg : String)

/-- The scause match of trap_handler (kernel/src/trap.rs). -/
def trapHandlerClassify (scause : Nat) : TrapAction :=
  match scause with
  | 0 => .panicTrap "instr address misalign"
  | 1 => .panicTrap "instruction access fault"
  | 2 => .panicTrap "illegal instruction"
  | 3 => .panicTrap "breakpoint"
  | 4 => .panicTrap "load address misaligned"
  | 5 => .panicTrap "load access fault"
  | 6 => .panicTrap "store/AMO address misaligned"
  | 7 => .panicTrap "store/AMO access fault"
  | 8 => .syscallDispatch
  | 9 => .panicTrap "environment call from HS-mode"
  | 10 => .panicTrap "environment call from VS-mode"
  | 11 => .panicTrap "environment call from M-mode"
  | 12 => .panicTrap "instruction page fault"
  | 13 => .panicTrap "load page fault"
  | 15 => .panicTrap "store/AMO page fault"
  | 20 => .panicTrap "instruction guest-page fault"
  | 21 => .panicTrap "load guest-page fault"
  | 22 => .panicTrap "virtual instruction"
  | 23 => .panicTrap "store/AMO guest-page fault"
  | 0x8000000000000000 => .panicTrap "user software interrupt"
  | 0x8000000000000001 => .panicTrap "supervisor software interrupt"
  | 0x8000000000000002 => .panicTrap "hypervisor software interrupt"
  | 0x8000000000000003 => .panicTrap "machine software interrupt"
  | 0x8000000000000004 => .panicTrap "user timer interrupt"
  | 0x8000000000000005 => .panicTrap "supervisor timer interrupt"
  | 0x8000000000000006 => .panicTrap "hypervisor timer interrupt"
  | 0x8000000000000007 => .panicTrap "machine timer interrupt"
  | 0x8000000000000008 => .panicTrap "user external interrupt"
  | 0x8000000000000009 => .panicTrap "supervisor external interrupt"
  | 0x800000000000000a => .panicTrap "hypervisor external interrupt"
  | 0x800000000000000b => .panicTrap "machine external interrupt"
  | _ => .panicTrap "unknown scause"

/-! ## kernel/src/allocator.rs : bump allocator -/

/-- Mutable part of BumpAllocator (kernel/src/allocator.rs). -/
structure BumpState where
  next : Nat
  memEnd : Nat
  deriving DecidableEq

/-- Rust usize::next_multiple_of for a positive modulus. -/
def nextMultipleOf (n k : Nat) : Nat := ((n + k - 1) / k) * k

/-- BumpAllocator::alloc (kernel/src/allocator.rs): round next up to the
layout alignment, panic (error) when the end of the heap would be passed,
otherwise advance next and return the rounded address. -/
def bumpAlloc (s : BumpState) (size align : Nat) : Except String (BumpState × Nat) :=
  let addr := nextMultipleOf s.next align
  if addr + size ≤ s.memEnd then
    .ok ({ next := addr + size, memEnd := s.memEnd }, addr)
  else
    .error "Out of Memory!"

/-- alloc_pages (kernel/src/memory.rs): n pages with page alignment,
through the global bump allocator. -/
def allocPages (s : BumpState) (n : Nat) : Except String (BumpState × Nat) :=
  bumpAlloc s (4096 * n) 4096

/-! ## kernel/src/memory.rs : Sv39 page tables

Raw physical memory is modelled as a store of 64-bit slots: `load a` is
the value of the 8-byte-aligned slot at byte address a.  The global bump
allocator is carried alongside (fields next and memEnd); alloc_zeroed of
one page zeroes the page, which the model performs explicitly. -/

def PAGE_SIZE : Nat := 4096

/-- Physical memory plus the allocator state backing walk and map_page. -/
structure Mem where
  load : Nat → Nat
  next : Nat
  memEnd : Nat

/-- Write the 64-bit slot at address a. -/
def store8 (m : Mem) (a v : Nat) : Mem :=
  { m with load := fun x => if x = a then v else m.load x }

/-- Memory after GLOBAL_ALLOCATOR.alloc_zeroed of one page succeeding at
an aligned bump pointer: the fresh page reads as zero. -/
def allocMem (m : Mem) : Mem :=
  { load := fun x => if m.next ≤ x ∧ x < m.next + 4096 then 0 else m.load x,
    next := m.next + 4096,
    memEnd := m.memEnd }

/-- GLOBAL_ALLOCATOR.alloc_zeroed(Layout(PAGE_SIZE, PAGE_SIZE)) as used by
walk (kernel/src/memory.rs): bump with rounding, panic (error) on OOM,
returned page zeroed. -/
def allocZeroedPage (m : Mem) : Except String (Mem × Nat) :=
  let addr := nextMultipleOf m.next 4096
  if addr + 4096 ≤ m.memEnd then
    .ok (allocMem { m with next := addr }, addr)
  else
    .error "Out of Memory!"

/-- Vaddr.pt_index_for_level (kernel/src/memory.rs). -/
def ptIndex (vaddr level : Nat) : Nat := (vaddr >>> (12 + level * 9)) &&& 0x1FF

/-- PTE::valid (kernel/src/memory.rs). -/
def pteValid (p : Nat) : Bool := p &&& (1 <<< 0) != 0

/-- PTE::into_paddr (kernel/src/memory.rs): (pte >> 10) << 12. -/
def pteIntoPaddr (p : Nat) : Nat := (p >>> 10) <<< 12

/-- PTE::from_paddr (kernel/src/memory.rs): (paddr >> 12) << 10. -/
def pteFromPaddr (pa : Nat) : Nat := (pa >>> 12) <<< 10

/-- PTE::set_valid (kernel/src/memory.rs). -/
def pteSetValid (p : Nat) : Nat := p ||| (1 <<< 0)

/-- PTE::read (kernel/src/memory.rs). -/
def pteRead (p : Nat) : Bool := p &&& (1 <<< 1) != 0

/-- PTE::write (kernel/src/memory.rs). -/
def pteWrite (p : Nat) : Bool := p &&& (1 <<< 2) != 0

/-- PTE::x (kernel/src/memory.rs). -/
def pteX (p : Nat) : Bool := p &&& (1 <<< 3) != 0

/-- PTE::u (kernel/src/memory.rs). -/
def pteU (p : Nat) : Bool := p &&& (1 <<< 4) != 0

/-- PageFlags (kernel/src/memory.rs). -/
structure PageFlags where
  read : Bool
  write : Bool
  execute : Bool
  user : Bool
  deriving DecidableEq

/-- PageFlags::as_raw (kernel/src/memory.rs). -/
def PageFlags.asRaw (f : PageFlags) : Nat :=
  ((((0 : Nat) ||| ((if f.read then 1 else 0) <<< 1))
    ||| ((if f.write then 1 else 0) <<< 2))
    ||| ((if f.execute then 1 else 0) <<< 3))
    ||| ((if f.user then 1 else 0) <<< 4)

/-- PageFlags::kernel_all (kernel/src/memory.rs). -/
def PageFlags.kernelAll : PageFlags := ⟨true, true, true, false⟩

/-- PageFlags::all (kernel/src/memory.rs). -/
def PageFlags.allPerms : PageFlags := ⟨true, true, true, true⟩

/-- The level loop of walk (kernel/src/memory.rs), iterating the levels in
the given order.  At each level: follow a valid entry, or (with alloc)
install a fresh zeroed table, or fail with no mapping. -/
def walkLoop (m : Mem) (pagetable vaddr : Nat) (alloc : Bool) :
    List Nat → Except String (Option (Mem × Nat))
  | [] => .ok (some (m, pagetable))
  | level :: rest =>
    let pteAddr := pagetable + 8 * ptIndex vaddr level
    if pteValid (m.load pteAddr) then
      walkLoop m (pteIntoPaddr (m.load pteAddr)) vaddr alloc rest
    else if alloc then
      match allocZeroedPage m with
      | .error e => .error e
      | .ok (m1, fresh) =>
        walkLoop (store8 m1 pteAddr (pteSetValid (pteFromPaddr fresh))) fresh vaddr alloc rest
    else
      .ok none

/-- walk (kernel/src/memory.rs): descend levels 2 and 1, then return the
address of the leaf slot at level 0. -/
def walk (m : Mem) (table1 vaddr : Nat) (alloc : Bool) : Except String (Option (Mem × Nat)) :=
  match walkLoop m table1 vaddr alloc [2, 1] with
  | .error e => .error e
  | .ok none => .ok none
  | .ok (some (m1, pt)) => .ok (some (m1, pt + 8 * ptIndex vaddr 0))

/-- map_page (kernel/src/memory.rs): alignment checks (panic modelled as
error), walk with allocation, panic on an already-valid leaf, otherwise
install the leaf PTE built from paddr, the flag bits and V=1. -/
def mapPage (m : Mem) (table1 vaddr paddr : Nat) (flags : PageFlags) : Except String Mem :=
  if (vaddr &&& 0xFFF) != 0 then
    .error "Virtual address not page-aligned"
  else if paddr % 4096 != 0 then
    .error "Physical address not page-aligned"
  else
    match walk m table1 vaddr true with
    | .error e => .error e
    | .ok none => .error "unreachable"
    | .ok (some (m1, pte)) =>
      if pteValid (m1.load pte) then
        .error "remap"
      else
        .ok (store8 m1 pte (pteSetValid (pteFromPaddr paddr ||| flags.asRaw)))

/-- Well-formed page-table pages at a given level: every valid entry
points at an aligned, already-allocated page strictly after its parent,
itself well formed one level down.  The bump allocator produces exactly
this shape: children are allocated after their parents. -/
def GoodTable (m : Mem) : Nat → Nat → Prop
  | 0, _ => True
  | l + 1, t => ∀ i, i < 512 → pteValid (m.load (t + 8 * i)) = true →
      pteIntoPaddr (m.load (t + 8 * i)) % 4096 = 0 ∧
      t + 4096 ≤ pteIntoPaddr (m.load (t + 8 * i)) ∧
      pteIntoPaddr (m.load (t + 8 * i)) + 4096 ≤ m.next ∧
      GoodTable m l (pteIntoPaddr (m.load (t + 8 * i)))

/-- Invariant tying a root page table to the memory and allocator state:
the root is an allocated aligned page, the bump pointer is page-aligned,
everything at or above the bump pointer still reads as zero, and the
table tree hanging off the root is well formed. -/
structure PTInv (m : Mem) (root : Nat) : Prop where
  rootAligned : root % 4096 = 0
  rootBound : root + 4096 ≤ m.next
  nextAligned : m.next % 4096 = 0
  freeZero : ∀ a, m.next ≤ a → m.load a = 0
  tables : GoodTable m 2 root

/-- A virtual address already carries a valid leaf mapping: the
allocation-free walk reaches a leaf slot whose PTE is valid. -/
def IsMappedLeafValid (m : Mem) (root vaddr : Nat) : Prop :=
  ∃ leaf, walk m root vaddr false = .ok (some (m, leaf)) ∧ pteValid (m.load leaf) = true

/-! ## kernel/src/process.rs : scheduler -/

/-- The fields of Process (kernel/src/process.rs) consulted by the
scheduler; the inline kernel stack is not represented. -/
structure Process where
  pid : Nat
  sp : Nat
  pageTable : Nat
  deriving DecidableEq

/-- Pid::is_idle (kernel/src/process.rs). -/
def Process.isIdleProcess (p : Process) : Bool := p.pid == 0

/-- The slot inspected at offset i of the find_next_process scan:
procs[(current + i) % PROCS_MAX]. -/
def slotAt (procs : Fin 8 → Option Process) (current i : Nat) : Option Process :=
  procs ⟨(current + i) % 8, Nat.mod_lt _ (by decide)⟩

/-- Whether the scan passes over offset i: the slot is empty or holds
the idle process. -/
def slotSkipped (procs : Fin 8 → Option Process) (current i : Nat) : Bool :=
  match slotAt procs current i with
  | some p => p.isIdleProcess
  | none => true

/-- Offset i holds no process other than the idle one. -/
def idleOrNone (procs : Fin 8 → Option Process) (current i : Nat) : Prop :=
  ∀ p, slotAt procs current i = some p → p.pid = 0

/-- Loop body of find_next_process (kernel/src/process.rs) over the
remaining offsets i: look at slot (current + i) % 8, skip empty slots and
the idle process, return the first other process.  Falling off the end is
the unreachable branch of the source. -/
def findNextAux (procs : Fin 8 → Option Process) (current : Nat) :
    List Nat → Except String Process
  | [] => .error "internal error: entered unreachable code"
  | i :: rest =>
    match slotAt procs current i with
    | some p => if p.isIdleProcess then findNextAux procs current rest else .ok p
    | none => findNextAux procs current rest

/-- find_next_process (kernel/src/process.rs): scan offsets 1..=8 from
the current pid. -/
def findNextProcess (procs : Fin 8 → Option Process) (current : Nat) : Except String Process :=
  findNextAux procs current [1, 2, 3, 4, 5, 6, 7, 8]

/-! ## kernel/src/virtio.rs : block-device driver

MMIO registers are modelled as a 32-bit register file keyed by byte
offset, with the trace of write operations recorded; a 64-bit access
covers the two consecutive 32-bit registers at its offset. -/

/-- One MMIO register write, as issued by the driver. -/
inductive RegEvent where
  | write32 (off val : Nat)
  | fetchOr32 (off val : Nat)
  | write64 (off val : Nat)
  deriving DecidableEq

/-- Offset of a register event. -/
def RegEvent.regOff : RegEvent → Nat
  | .write32 o _ => o
  | .fetchOr32 o _ => o
  | .write64 o _ => o

/-- Pointwise update of a Nat-indexed table. -/
def updFn {α : Type} (f : Nat → α) (i : Nat) (v : α) : Nat → α :=
  fun j => if j = i then v else f j

/-- MMIO register file plus the log of writes issued so far. -/
structure Mmio where
  regs : Nat → Nat
  log : List RegEvent

/-- virtio_reg_write32 (kernel/src/virtio.rs). -/
def regWrite32 (s : Mmio) (off v : Nat) : Mmio :=
  { regs := updFn s.regs off (v % 4294967296), log := s.log ++ [.write32 off v] }

/-- virtio_reg_fetch_and_or32 (kernel/src/virtio.rs): read-modify-write OR. -/
def regFetchOr32 (s : Mmio) (off v : Nat) : Mmio :=
  { regs := updFn s.regs off ((s.regs off ||| v) % 4294967296),
    log := s.log ++ [.fetchOr32 off v] }

/-- virtio_reg_write64 (kernel/src/virtio.rs): low half at off, high half
at off + 4. -/
def regWrite64 (s : Mmio) (off v : Nat) : Mmio :=
  { regs := updFn (updFn s.regs off (v % 4294967296)) (off + 4) (v / 4294967296 % 4294967296),
    log := s.log ++ [.write64 off v] }

/-- virtio_reg_read64 (kernel/src/virtio.rs). -/
def regRead64 (s : Mmio) (off : Nat) : Nat :=
  s.regs off + s.regs (off + 4) * 4294967296

/-- Register writes performed by Virtq::init (kernel/src/virtio.rs):
QUEUE_SEL, QUEUE_NUM=16, QUEUE_ALIGN=0, then the 64-bit write of the
virtqueue address to the QUEUE_PFN register. -/
def virtqInitRegs (s : Mmio) (index virtqAddr : Nat) : Mmio :=
  regWrite64 (regWrite32 (regWrite32 (regWrite32 s 0x30 index) 0x38 16) 0x3c 0) 0x40 virtqAddr

/-- BlockDeviceDriver::new (kernel/src/virtio.rs): sanity checks on
magic, version and device id (panic modelled as error), the status
handshake, queue initialization, the DRIVER_OK status write, and the
capacity read from DEVICE_CONFIG scaled by the sector size. -/
def blockDeviceDriverNew (s0 : Mmio) (virtqAddr : Nat) : Except String (Mmio × Nat) :=
  if s0.regs 0x00 ≠ 0x74726976 then .error "virtio: Invalid magic" else
  if s0.regs 0x04 ≠ 1 then .error "virtio: Invalid version" else
  if s0.regs 0x08 ≠ 2 then .error "virtio: Invalid device" else
  let s1 := regWrite32 s0 0x70 0
  let s2 := regFetchOr32 s1 0x70 1
  let s3 := regFetchOr32 s2 0x70 2
  let s4 := regFetchOr32 s3 0x70 8
  let s5 := virtqInitRegs s4 0 virtqAddr
  let s6 := regWrite32 s5 0x70 4
  .ok (s6, regRead64 s6 0x100 * 512)

/-- One virtqueue descriptor (kernel/src/virtio.rs). -/
structure VqDesc where
  addr : Nat
  len : Nat
  flags : Nat
  next : Nat
  deriving DecidableEq

/-- The driver-visible virtqueue state (kernel/src/virtio.rs).  The
descriptor table and available ring are indexed by Nat; the source only
touches descriptor slots 0..2 and ring slot (available.index % 16).
usedIndex is the device-owned used.index field that the driver's
used_index pointer aliases. -/
structure Virtq where
  descriptors : Nat → VqDesc
  availFlags : Nat
  availIndex : Nat
  availRing : Nat → Nat
  usedIndex : Nat
  queueIndex : Nat
  lastUsedIndex : Nat

/-- BlockDeviceDriver (kernel/src/virtio.rs). -/
structure BlockDriver where
  virtq : Virtq
  capacity : Nat

/-- IOError (kernel/src/virtio.rs). -/
inductive IOError where
  | InvalidSector (sector capacity : Nat)
  | NotEnoughSpaceForRead (size : Nat)
  | WriteFail (sector status : Nat)
  | ReadFail (sector status : Nat)
  deriving DecidableEq

/-- BlockDeviceDriver::kick (kernel/src/virtio.rs): publish the
descriptor index on the available ring, bump available.index, notify the
device (the returned list is the QUEUE_NOTIFY value written), and bump
the shadow last_used_index.  The u16 counters wrap at 65536. -/
def kick (d : BlockDriver) (descIndex : Nat) : BlockDriver × List Nat :=
  let idx := d.virtq.availIndex % 16
  let vq1 := { d.virtq with availRing := updFn d.virtq.availRing idx descIndex }
  let vq2 := { vq1 with availIndex := (vq1.availIndex + 1) % 65536 }
  let vq3 := { vq2 with lastUsedIndex := (vq2.lastUsedIndex + 1) % 65536 }
  ({ d with virtq := vq3 }, [d.virtq.queueIndex])

/-- Descriptor writes of disk_read / disk_write (kernel/src/virtio.rs)
for a request at address reqAddr: header descriptor (16 bytes), data
descriptor (512 bytes, device-writable for reads), status descriptor
(1 byte, device-writable).  Only the assigned fields change; slot 2
keeps its previous next field. -/
def writeDescriptors (d : BlockDriver) (reqAddr : Nat) (dataFlags : Nat) : BlockDriver :=
  let ds0 := updFn d.virtq.descriptors 0
    { addr := reqAddr, len := 16, flags := 1, next := 1 }
  let ds1 := updFn ds0 1
    { addr := reqAddr + 16, len := 512, flags := dataFlags, next := 2 }
  let old2 := ds1 2
  let ds2 := updFn ds1 2
    { addr := reqAddr + 528, len := 1, flags := 2, next := old2.next }
  { d with virtq := { d.virtq with descriptors := ds2 } }

/-- disk_read (kernel/src/virtio.rs).  The device is modelled by the
status byte and the 512-byte data it leaves in the request once the
busy-wait sees last_used_index equal the used index; reqAddr is the stack
address of the request.  Returns the result, the driver state, the caller
buffer after the call, and the QUEUE_NOTIFY writes issued. -/
def diskRead (d : BlockDriver) (buf : List Nat) (sector : Nat) (reqAddr : Nat)
    (devStatus : Nat) (devData : List Nat) :
    Except IOError Unit × BlockDriver × List Nat × List Nat :=
  if buf.length < 512 then
    (.error (.NotEnoughSpaceForRead buf.length), d, buf, [])
  else if sector < d.capacity / 512 then
    let d1 := writeDescriptors d reqAddr (1 ||| 2)
    let kicked := kick d1 0
    let d2 := kicked.1
    let d3 := { d2 with virtq := { d2.virtq with usedIndex := d2.virtq.lastUsedIndex } }
    if devStatus ≠ 0 then
      (.error (.ReadFail sector devStatus), d3, buf, kicked.2)
    else
      (.ok (), d3, devData.take 512 ++ buf.drop 512, kicked.2)
  else
    (.error (.InvalidSector sector d.capacity), d, buf, [])

/-! Byte-level model of the BlockRequest copies (kernel/src/virtio.rs).
BlockRequest is repr(packed): type_ at offset 0, reserved at 4, sector at
8, data at 16..528, status at 528. -/

/-- Store one byte. -/
def storeByte (mem : Nat → Nat) (a v : Nat) : Nat → Nat :=
  fun x => if x = a then v % 256 else mem x

/-- ptr::copy_nonoverlapping of a byte buffer to address dst: byte i of
src lands at dst + i. -/
def copyBytes (mem : Nat → Nat) (dst : Nat) (src : List Nat) : Nat → Nat :=
  (src.enum).foldl (fun mm p => storeByte mm (dst + p.1) p.2) mem

/-- Little-endian 4-byte store (sw, and the u32 type_ field). -/
def swStore (mem : Nat → Nat) (a v : Nat) : Nat → Nat :=
  copyBytes mem a [v, v >>> 8, v >>> 16, v >>> 24]

/-- Little-endian 8-byte store (sd, and the u64 sector field). -/
def sdStore (mem : Nat → Nat) (a v : Nat) : Nat → Nat :=
  copyBytes mem a [v, v >>> 8, v >>> 16, v >>> 24, v >>> 32, v >>> 40, v >>> 48, v >>> 56]

/-- Little-endian 8-byte load (ld). -/
def ldLoad (mem : Nat → Nat) (a : Nat) : Nat :=
  mem a + mem (a + 1) * 256 + mem (a + 2) * 65536 + mem (a + 3) * 16777216 +
  mem (a + 4) * 4294967296 + mem (a + 5) * 1099511627776 +
  mem (a + 6) * 281474976710656 + mem (a + 7) * 72057594037927936

/-- Byte image of BlockRequest::default() with type_ and sector assigned
(disk_write lines: request.sector = sector; request.type_ = OUT). -/
def blockRequestBytes (reqType sector : Nat) : Nat → Nat :=
  swStore (sdStore (fun _ => 0) 8 sector) 0 reqType

/-- The unchecked copy in disk_write (kernel/src/virtio.rs):
copy_nonoverlapping(buf.as_ptr(), request.data.as_mut_ptr(), buf.len()),
landing at offset 16 of the request, with no clamping to 512 bytes. -/
def diskWriteRequestBytes (buf : List Nat) (sector : Nat) : Nat → Nat :=
  copyBytes (blockRequestBytes 1 sector) 16 buf

/-! ## kernel/src/trap.rs : trap entry stub (byte-level)

The stub swaps sp with sscratch, allocates a 256-byte frame, stores
x1..x31 with sd at offsets 0,8,...,240, reads the parked user sp back
from sscratch and stores it at offset 248 with sw (a 4-byte store), and
on the way out reloads sp from offset 248 with ld (an 8-byte load). -/

/-- Frame-building part of trap_vector (kernel/src/trap.rs): kernel-stack
memory after the register stores, and the frame base sp.  xreg i is the
value of register x_i after the initial csrrw; userSp is the value read
back from sscratch. -/
def trapSaveFrame (mem : Nat → Nat) (kstackTop userSp : Nat) (xreg : Nat → Nat) :
    (Nat → Nat) × Nat :=
  let sp1 := kstackTop - 256
  let mem1 := (List.range 31).foldl (fun mm i => sdStore mm (sp1 + 8 * i) (xreg (i + 1))) mem
  let mem2 := swStore mem1 (sp1 + 248) userSp
  (mem2, sp1)

/-- The final reload of trap_vector (kernel/src/trap.rs): ld sp, 248(sp). -/
def trapRestoredSp (mem : Nat → Nat) (sp1 : Nat) : Nat :=
  ldLoad mem (sp1 + 248)

/-! ## tarfile/src/lib.rs : TAR parser

The nom combinators specialized to byte input are modelled as functions
from a byte list to an optional (output, remaining-input) pair. -/

/-- Byte parser: input to optional output and remaining input. -/
def BParse (α : Type) : Type := List Nat → Option (α × List Nat)

/-- nom take(n). -/
def ptake (n : Nat) : BParse (List Nat) := fun input =>
  if n ≤ input.length then some (input.take n, input.drop n) else none

/-- nom tag(pat). -/
def ptag (pat : List Nat) : BParse (List Nat) := fun input =>
  if pat.isPrefixOf input then some (pat, input.drop pat.length) else none

/-- Parser.map. -/
def pmap {α β : Type} (p : BParse α) (f : α → β) : BParse β := fun input =>
  match p input with
  | some (a, rest) => some (f a, rest)
  | none => none

/-- Parser.flat_map / sequencing. -/
def pbind {α β : Type} (p : BParse α) (f : α → BParse β) : BParse β := fun input =>
  match p input with
  | some (a, rest) => f a rest
  | none => none

/-- nom is_not("\0"): longest nonempty prefix free of NUL bytes. -/
def pisNot0 : BParse (List Nat) := fun input =>
  let pre := input.takeWhile (fun c => c != 0)
  if pre.isEmpty then none else some (pre, input.drop pre.length)

/-- nom terminated(p, q). -/
def pterminated {α β : Type} (p : BParse α) (q : BParse β) : BParse α :=
  pbind p (fun a => pmap q (fun _ => a))

/-- nom map_parser(outer, inner): run inner on the slice produced by
outer; leftover of the inner parse is discarded. -/
def pmapParser {α : Type} (outer : BParse (List Nat)) (inner : BParse α) : BParse α :=
  fun input =>
    match outer input with
    | none => none
    | some (slice, rest) =>
      match inner slice with
      | none => none
      | some (a, _) => some (a, rest)

/-- nom verify(p, pred). -/
def pverify {α : Type} (p : BParse α) (pred : α → Bool) : BParse α := fun input =>
  match p input with
  | some (a, rest) => if pred a then some (a, rest) else none
  | none => none

/-- nom many_till(p, q), with explicit fuel for termination; the fuel is
instantiated with more than the input length, which p (consuming at
least one byte per iteration here) can never exhaust. -/
def pmanyTill {α β : Type} (p : BParse α) (q : BParse β) :
    Nat → BParse (List α × β)
  | 0 => fun _ => none
  | fuel + 1 => fun input =>
    match q input with
    | some (b, rest) => some (([], b), rest)
    | none =>
      match p input with
      | none => none
      | some (a, rest) =>
        match pmanyTill p q fuel rest with
        | none => none
        | some ((as, b), rest2) => some ((a :: as, b), rest2)

/-- null_terminated (tarfile/src/lib.rs), with the name kept as bytes. -/
def nullTerminated : BParse (List Nat) := pterminated pisNot0 (ptag [0])

/-- null_terminated_padded (tarfile/src/lib.rs). -/
def nullTerminatedPadded (maxLen : Nat) : BParse (List Nat) :=
  pbind nullTerminated (fun name => pmap (ptake (maxLen - (name.length + 1))) (fun _ => name))

/-- skip (tarfile/src/lib.rs). -/
def pskip (n : Nat) : BParse Unit := pmap (ptake n) (fun _ => ())

/-- TarHeader::file_size (tarfile/src/lib.rs): 12 bytes through oct2int. -/
def fileSizeP : BParse Nat := pmap (ptake 12) (fun buf => oct2int buf)

/-- TarHeader::magic (tarfile/src/lib.rs): 6 bytes equal to "ustar\0". -/
def magicP : BParse Unit :=
  pmap (pverify (ptake 6) (fun buf => buf == [117, 115, 116, 97, 114, 0])) (fun _ => ())

/-- TarHeader (tarfile/src/lib.rs), name kept as raw bytes. -/
structure TarHeader where
  name : List Nat
  fileSize : Nat
  deriving DecidableEq

/-- TarHeader::header_block (tarfile/src/lib.rs): name, 24 skipped
bytes, file size, 121 skipped bytes, magic, 235 skipped bytes. -/
def headerBlockP : BParse TarHeader :=
  pbind (nullTerminatedPadded 100) (fun name =>
  pbind (pskip 24) (fun _ =>
  pbind fileSizeP (fun fileSize =>
  pbind (pskip 121) (fun _ =>
  pbind magicP (fun _ =>
  pmap (pskip 235) (fun _ => TarHeader.mk name fileSize))))))

/-- TarHeader::parser (tarfile/src/lib.rs): header_block applied to one
512-byte block. -/
def tarHeaderP : BParse TarHeader := pmapParser (ptake 512) headerBlockP

/-- FileRef (tarfile/src/lib.rs), data kept as bytes. -/
structure FileRef where
  header : TarHeader
  data : List Nat
  deriving DecidableEq

/-- blocks (tarfile/src/lib.rs). -/
def blocksP (num : Nat) : BParse (List Nat) := ptake (num * 512)

/-- FileRef::file_data (tarfile/src/lib.rs): size/512 blocks plus a slop
block when the size is not a multiple of 512; the data slice is the
first file_size bytes. -/
def fileDataP (header : TarHeader) : BParse FileRef :=
  let numBlocks := header.fileSize / 512 + (if header.fileSize % 512 != 0 then 1 else 0)
  pmap (blocksP numBlocks) (fun data => FileRef.mk header (data.take header.fileSize))

/-- FileRef::parser (tarfile/src/lib.rs). -/
def fileRefP : BParse FileRef := pbind tarHeaderP fileDataP

/-- zero_block (tarfile/src/lib.rs): two consecutive zero blocks. -/
def zeroBlockP : BParse Unit := pmap (ptag (List.replicate 1024 0)) (fun _ => ())

/-- tar_file (tarfile/src/lib.rs): file records until the double zero
block, keeping the file list. -/
def tarFileP (input : List Nat) : Option (List FileRef × List Nat) :=
  match pmanyTill fileRefP zeroBlockP (input.length + 1) input with
  | some ((files, _), rest) => some (files, rest)
  | none => none

/-- Name bytes of "./hello.txt". -/
def helloName : List Nat := [46, 47, 104, 101, 108, 108, 111, 46, 116, 120, 116]

/-- Content bytes of "Hello!\n". -/
def helloData : List Nat := [72, 101, 108, 108, 111, 33, 10]

/-- Header block of a ustar archive holding ./hello.txt with 7 bytes of
data: name padded to 100 bytes, 24 zero bytes, the octal size field
"00000000007" NUL-terminated, 121 zero bytes, the ustar magic, and zero
padding to 512 bytes. -/
def singleTarHeader : List Nat :=
  helloName ++ [0] ++ List.replicate 88 0 ++ List.replicate 24 0 ++
  (List.replicate 10 48 ++ [55, 0]) ++ List.replicate 121 0 ++
  [117, 115, 116, 97, 114, 0] ++ List.replicate 249 0

/-- The single-file archive: header block, one data block, and the two
terminating zero blocks. -/
def singleTarArchive : List Nat :=
  singleTarHeader ++ (helloData ++ List.replicate 505 0) ++ List.replicate 1024 0

/-- Process table holding only the idle process in slot 0. -/
def procsIdleOnly : Fin 8 → Option Process :=
  fun j => if j = 0 then some ⟨0, 0, 0⟩ else none

/-- Concrete MMIO register file passing the virtio sanity checks: magic,
version and device id set, everything else zero. -/
def c5InitRegs : Nat → Nat :=
  fun off => if off = 0 then 0x74726976 else if off = 4 then 1 else if off = 8 then 2 else 0

/-- Process table holding the idle process in slot 0 and one user
process (pid 1) in slot 1. -/
def c3ProcsW : Fin 8 → Option Process :=
  fun j => if j = 0 then some ⟨0, 0, 0⟩ else if j = 1 then some ⟨1, 0, 0⟩ else none

/-- Concrete block driver with capacity 1024 bytes (two sectors) and a
quiescent virtqueue. -/
def c4DriverW : BlockDriver :=
  { virtq :=
      { descriptors := fun _ => ⟨0, 0, 0, 0⟩
        availFlags := 0
        availIndex := 0
        availRing := fun _ => 0
        usedIndex := 0
        queueIndex := 0
        lastUsedIndex := 0 }
    capacity := 1024 }

/-- Concrete paging state: one zeroed root table page at 4096, bump
pointer at 8192, four free pages of heap. -/
def pagingMemW : Mem := { load := fun _ => 0, next := 8192, memEnd := 32768 }

/-- Concrete page flags: readable, writable, user-accessible. -/
def pagingFlagsW : PageFlags := ⟨true, true, false, true⟩

/-- Concrete paging state whose heap is exhausted: the root page at 0 is
the last allocated page. -/
def pagingMemOOM : Mem := { load := fun _ => 0, next := 4096, memEnd := 4096 }

/-! ## Theorems -/

/-- C1: the spec's canonical syscall table (common/src/lib.rs) says 1 is
PUTCHAR, 2 is GETCHAR, 3 is EXIT, but the kernel dispatcher
(handle_syscall, kernel/src/trap.rs), reached for scause 8, panics on
number 1, emits a byte for number 3, and has no EXIT arm: the two sites
of the repository contradict each other. -/
theorem c1_syscall_numbering_mismatch :
    trapHandlerClassify 8 = TrapAction.syscallDispatch ∧
    handleSyscallDispatch 1 65 = SyscallAction.panicUnknownSyscall 1 ∧
    Syscall.tryFromU64 1 = .ok .PUTCHAR ∧
    handleSyscallDispatch 3 65 = SyscallAction.putcharA 65 ∧
    Syscall.tryFromU64 3 = .ok .EXIT ∧
    handleSyscallDispatch 2 7 = SyscallAction.getcharA :=
  ⟨rfl, rfl, rfl, rfl, rfl, rfl⟩

/-- C6: the trap entry stub saves the user sp with a 4-byte sw at frame
offset 248 but reloads sp with an 8-byte ld: a user sp of 2^32 is
restored as 0 (with zeroed stale stack bytes), while a sp below 2^32
round-trips; the frame's sp field does not hold the full 64-bit user sp. -/
theorem c6_trap_frame_sp_truncated :
    trapRestoredSp (trapSaveFrame (fun _ => 0) 256 4294967296 (fun _ => 0)).1
        (trapSaveFrame (fun _ => 0) 256 4294967296 (fun _ => 0)).2 = 0 ∧
    (4294967296 : Nat) ≠ 0 ∧
    trapRestoredSp (trapSaveFrame (fun _ => 0) 256 5 (fun _ => 0)).1
        (trapSaveFrame (fun _ => 0) 256 5 (fun _ => 0)).2 = 5 :=
  ⟨by decide, by decide, by decide⟩

/-- C10: disk_write copies buf.len() bytes into the 512-byte data field
at offset 16 of the packed BlockRequest with no clamp: a 513-byte buffer
overwrites the status byte at offset 528, one past the data field. -/
theorem c10_disk_write_copy_overflows :
    (List.replicate 513 170).length = 513 ∧
    blockRequestBytes 1 0 528 = 0 ∧
    diskWriteRequestBytes (List.replicate 513 170) 0 528 = 170 ∧
    ¬ (∀ a, 528 ≤ a →
        diskWriteRequestBytes (List.replicate 513 170) 0 a = blockRequestBytes 1 0 a) := by
  refine ⟨by decide, by decide, by decide, fun h => ?_⟩
  have h5 := h 528 (by decide)
  have e1 : diskWriteRequestBytes (List.replicate 513 170) 0 528 = 170 := by decide
  have e2 : blockRequestBytes 1 0 528 = 0 := by decide
  rw [e1, e2] at h5
  exact absurd h5 (by decide)

/-- C7: alloc_pages returns page-aligned addresses, never moves the bump
pointer backwards, and two successive allocations are disjoint, the
second starting at or after the end of the first. -/
theorem c7_alloc_pages_aligned_monotonic_disjoint
    (s s1 s2 : BumpState) (n m a1 a2 : Nat)
    (hn : 1 ≤ n)
    (h1 : allocPages s n = .ok (s1, a1))
    (h2 : allocPages s1 m = .ok (s2, a2)) :
    a1 % 4096 = 0 ∧ s.next ≤ a1 ∧ a2 % 4096 = 0 ∧ s1.next ≤ a2 ∧ a1 + 4096 * n ≤ a2 := by
  unfold allocPages bumpAlloc nextMultipleOf at h1 h2
  simp only at h1 h2
  split at h1
  · simp only [Except.ok.injEq, Prod.mk.injEq] at h1
    obtain ⟨hs1, ha1⟩ := h1
    split at h2
    · simp only [Except.ok.injEq, Prod.mk.injEq] at h2
      obtain ⟨hs2, ha2⟩ := h2
      have hn1 : s1.next = ((s.next + 4096 - 1) / 4096) * 4096 + 4096 * n := by
        rw [← hs1]
      omega
    · exact absurd h2 (by simp)
  · exact absurd h1 (by simp)

/-- Witness for C7 at a concrete allocator state: the first allocation
of one page from next = 1 lands at 4096, the second (two pages) at 8192. -/
theorem c7_witness :
    (4096 : Nat) % 4096 = 0 ∧ (1 : Nat) ≤ 4096 ∧ (8192 : Nat) % 4096 = 0 ∧
    (8192 : Nat) ≤ 8192 ∧ (4096 : Nat) + 4096 * 1 ≤ 8192 :=
  c7_alloc_pages_aligned_monotonic_disjoint ⟨1, 100000⟩ ⟨8192, 100000⟩ ⟨16384, 100000⟩
    1 2 4096 8192 (by decide) (by rfl) (by rfl)

/-- C4: disk_read checks the buffer size first (error
NotEnoughSpaceForRead, virtqueue untouched, no notify), then the sector
range (error InvalidSector, virtqueue untouched, no notify); after
completion a nonzero status yields ReadFail carrying sector and status,
and a zero status copies exactly 512 bytes of request data over the
start of the caller buffer. -/
theorem c4_disk_read_error_paths
    (d : BlockDriver) (buf : List Nat) (sector reqAddr st : Nat) (data : List Nat) :
    (buf.length < 512 →
      diskRead d buf sector reqAddr st data =
        (.error (.NotEnoughSpaceForRead buf.length), d, buf, [])) ∧
    (512 ≤ buf.length → d.capacity / 512 ≤ sector →
      diskRead d buf sector reqAddr st data =
        (.error (.InvalidSector sector d.capacity), d, buf, [])) ∧
    (512 ≤ buf.length → sector < d.capacity / 512 → st ≠ 0 →
      (diskRead d buf sector reqAddr st data).1 = .error (.ReadFail sector st)) ∧
    (512 ≤ buf.length → sector < d.capacity / 512 → st = 0 → data.length = 512 →
      (diskRead d buf sector reqAddr st data).1 = .ok () ∧
      (diskRead d buf sector reqAddr st data).2.2.1 = data ++ buf.drop 512 ∧
      ((diskRead d buf sector reqAddr st data).2.2.1).length = buf.length) := by
  refine ⟨fun h => ?_, fun h1 h2 => ?_, fun h1 h2 h3 => ?_, fun h1 h2 h3 h4 => ?_⟩
  · simp [diskRead, h]
  · have hx : ¬ buf.length < 512 := by omega
    have hy : ¬ sector < d.capacity / 512 := by omega
    simp [diskRead, hx, hy]
  · have hx : ¬ buf.length < 512 := by omega
    simp [diskRead, hx, h2, h3]
  · have hx : ¬ buf.length < 512 := by omega
    have htake : data.take 512 = data := List.take_of_length_le (by omega)
    refine ⟨?_, ?_, ?_⟩
    · simp [diskRead, hx, h2, h3]
    · simp [diskRead, hx, h2, h3, htake]
    · simp [diskRead, hx, h2, h3, htake]
      omega

/-- Witness for C4: on a two-sector disk, a 256-byte buffer yields
NotEnoughSpaceForRead(256) with nothing touched, sector 2 yields
InvalidSector(2, 1024) with nothing touched, a failing device status
yields ReadFail, and a successful read replaces the first 512 bytes of
the buffer with the device data. -/
theorem c4_witness :
    diskRead c4DriverW (List.replicate 256 0) 0 1000 0 (List.replicate 512 9) =
      (.error (.NotEnoughSpaceForRead 256), c4DriverW, List.replicate 256 0, []) ∧
    diskRead c4DriverW (List.replicate 512 7) 2 1000 0 (List.replicate 512 9) =
      (.error (.InvalidSector 2 1024), c4DriverW, List.replicate 512 7, []) ∧
    (diskRead c4DriverW (List.replicate 512 7) 0 1000 1 (List.replicate 512 9)).1 =
      .error (.ReadFail 0 1) ∧
    (diskRead c4DriverW (List.replicate 512 7) 0 1000 0 (List.replicate 512 9)).1 = .ok () ∧
    (diskRead c4DriverW (List.replicate 512 7) 0 1000 0 (List.replicate 512 9)).2.2.1 =
      List.replicate 512 9 ++ (List.replicate 512 7).drop 512 := by
  refine ⟨?_, ?_, ?_, ?_, ?_⟩
  · exact (c4_disk_read_error_paths c4DriverW (List.replicate 256 0) 0 1000 0
      (List.replicate 512 9)).1 (by simp)
  · exact (c4_disk_read_error_paths c4DriverW (List.replicate 512 7) 2 1000 0
      (List.replicate 512 9)).2.1 (by simp) (by decide)
  · exact (c4_disk_read_error_paths c4DriverW (List.replicate 512 7) 0 1000 1
      (List.replicate 512 9)).2.2.1 (by simp) (by decide) (by decide)
  · exact ((c4_disk_read_error_paths c4DriverW (List.replicate 512 7) 0 1000 0
      (List.replicate 512 9)).2.2.2 (by simp) (by decide) rfl (by simp)).1
  · exact ((c4_disk_read_error_paths c4DriverW (List.replicate 512 7) 0 1000 0
      (List.replicate 512 9)).2.2.2 (by simp) (by decide) rfl (by simp)).2.1

/-- C5 (amended): during BlockDeviceDriver::new the writes to
DEVICE_STATUS (offset 0x70) are the reset write of 0, then read-modify-
write ORs of ACK(1), DRIVER(2) and FEAT_OK(8); but after queue
initialization the driver issues a plain 32-bit write of DRIVER_OK(4),
not an OR, so the final DEVICE_STATUS value is exactly 4. -/
theorem c5_device_status_sequence
    (s : Mmio) (vq : Nat)
    (hm : s.regs 0 = 0x74726976) (hv : s.regs 4 = 1) (hd : s.regs 8 = 2)
    (hl : s.log = []) :
    ∃ out cap, blockDeviceDriverNew s vq = .ok (out, cap) ∧
      out.log.filter (fun e => e.regOff == 0x70) =
        [.write32 0x70 0, .fetchOr32 0x70 1, .fetchOr32 0x70 2,
         .fetchOr32 0x70 8, .write32 0x70 4] ∧
      out.regs 0x70 = 4 := by
  refine ⟨regWrite32 (virtqInitRegs (regFetchOr32 (regFetchOr32 (regFetchOr32
      (regWrite32 s 0x70 0) 0x70 1) 0x70 2) 0x70 8) 0 vq) 0x70 4,
    regRead64 (regWrite32 (virtqInitRegs (regFetchOr32 (regFetchOr32 (regFetchOr32
      (regWrite32 s 0x70 0) 0x70 1) 0x70 2) 0x70 8) 0 vq) 0x70 4) 0x100 * 512,
    ?_, ?_, ?_⟩
  · simp [blockDeviceDriverNew, hm, hv, hd]
  · simp [regWrite32, regFetchOr32, regWrite64, virtqInitRegs,
      RegEvent.regOff, hl, List.filter]
  · simp [regWrite32, regFetchOr32, regWrite64, virtqInitRegs, updFn]

/-- Counterexample for C5 as stated: on a device whose registers pass
the sanity checks, the final DEVICE_STATUS after BlockDeviceDriverNew is
4 — the ACK bit (and DRIVER, FEAT_OK) is not contained, because the last
status operation is a plain write of DRIVER_OK rather than an OR. -/
theorem c5_counterexample :
    ((blockDeviceDriverNew ⟨c5InitRegs, []⟩ 4096).toOption.map (fun p => p.1.regs 0x70)) =
      some 4 ∧
    ¬ ((4 : Nat) &&& 1 ≠ 0) ∧
    ((blockDeviceDriverNew ⟨c5InitRegs, []⟩ 4096).toOption.map
        (fun p => p.1.log.filter (fun e => e.regOff == 0x70))) =
      some [.write32 0x70 0, .fetchOr32 0x70 1, .fetchOr32 0x70 2,
            .fetchOr32 0x70 8, .write32 0x70 4] := by
  refine ⟨by rfl, by decide, by rfl⟩

/-- Witness for C5: the amended status-write sequence instantiated on
the concrete register file passing the sanity checks. -/
theorem c5_witness :
    ∃ out cap, blockDeviceDriverNew ⟨c5InitRegs, []⟩ 4096 = .ok (out, cap) ∧
      out.log.filter (fun e => e.regOff == 0x70) =
        [.write32 0x70 0, .fetchOr32 0x70 1, .fetchOr32 0x70 2,
         .fetchOr32 0x70 8, .write32 0x70 4] ∧
      out.regs 0x70 = 4 :=
  c5_device_status_sequence ⟨c5InitRegs, []⟩ 4096 (by rfl) (by rfl) (by rfl) (by rfl)

theorem skipped_idleOrNone (procs : Fin 8 → Option Process) (current i : Nat)
    (h : slotSkipped procs current i = true) : idleOrNone procs current i := by
  intro p hp
  unfold slotSkipped at h
  rw [hp] at h
  simpa [Process.isIdleProcess] using h

theorem slotSkipped_false (procs : Fin 8 → Option Process) (current i : Nat)
    (h : slotSkipped procs current i = false) :
    ∃ p, slotAt procs current i = some p ∧ p.isIdleProcess = false ∧ p.pid ≠ 0 := by
  unfold slotSkipped at h
  cases hs : slotAt procs current i with
  | none => rw [hs] at h; exact absurd h (by simp)
  | some p =>
    rw [hs] at h
    refine ⟨p, rfl, h, ?_⟩
    simpa [Process.isIdleProcess] using h

theorem findNextAux_cons_skip (procs : Fin 8 → Option Process) (current i : Nat)
    (rest : List Nat) (h : slotSkipped procs current i = true) :
    findNextAux procs current (i :: rest) = findNextAux procs current rest := by
  unfold slotSkipped at h
  cases hs : slotAt procs current i with
  | none => simp only [findNextAux, hs]
  | some p =>
    rw [hs] at h
    have hpi : p.isIdleProcess = true := h
    simp only [findNextAux, hs, hpi, if_true]

theorem findNextAux_cons_hit (procs : Fin 8 → Option Process) (current i : Nat)
    (rest : List Nat) (p : Process) (h : slotAt procs current i = some p)
    (hp : p.isIdleProcess = false) :
    findNextAux procs current (i :: rest) = .ok p := by
  simp only [findNextAux, h, hp, Bool.false_eq_true, if_false]

/-- C3 (amended): under the table invariant, find_next_process returns
the first non-idle occupied slot in round-robin order starting at
(current + 1) % 8, never the idle process; but when no non-idle process
exists it does not return the idle slot: it takes the unreachable branch
and panics. -/
theorem c3_find_next_round_robin (procs : Fin 8 → Option Process) (current : Nat)
    (hslot0 : ∀ p, procs 0 = some p → p.pid = 0) :
    ((∃ j : Fin 8, ∃ p, procs j = some p ∧ p.pid ≠ 0) →
      ∃ i p, 1 ≤ i ∧ i ≤ 8 ∧ slotAt procs current i = some p ∧ p.pid ≠ 0 ∧
        findNextProcess procs current = .ok p ∧
        (∀ j, 1 ≤ j → j < i → idleOrNone procs current j)) ∧
    ((∀ j : Fin 8, ∀ p, procs j = some p → p.pid = 0) →
      findNextProcess procs current = .error "internal error: entered unreachable code") := by
  constructor
  · rintro ⟨j, p, hj, hp⟩
    have hcover : ∃ i, 1 ≤ i ∧ i ≤ 8 ∧ (current + i) % 8 = j.val := by
      have hjv : j.val < 8 := j.isLt
      by_cases hz : (8 + j.val - current % 8) % 8 = 0
      · exact ⟨8, by omega, by omega, by omega⟩
      · exact ⟨(8 + j.val - current % 8) % 8, by omega, by omega, by omega⟩
    obtain ⟨i0, hi0a, hi0b, hi0c⟩ := hcover
    have hi0 : slotSkipped procs current i0 = false := by
      have hfin : (⟨(current + i0) % 8, Nat.mod_lt _ (by decide)⟩ : Fin 8) = j := Fin.ext hi0c
      unfold slotSkipped slotAt
      rw [hfin, hj]
      show p.isIdleProcess = false
      simp only [Process.isIdleProcess, beq_eq_false_iff_ne, ne_eq]
      exact hp
    by_cases h1 : slotSkipped procs current 1 = true
    · by_cases h2 : slotSkipped procs current 2 = true
      · by_cases h3 : slotSkipped procs current 3 = true
        · by_cases h4 : slotSkipped procs current 4 = true
          · by_cases h5 : slotSkipped procs current 5 = true
            · by_cases h6 : slotSkipped procs current 6 = true
              · by_cases h7 : slotSkipped procs current 7 = true
                · by_cases h8 : slotSkipped procs current 8 = true
                  · exfalso
                    interval_cases i0
                    · exact absurd h1 (by simp [hi0])
                    · exact absurd h2 (by simp [hi0])
                    · exact absurd h3 (by simp [hi0])
                    · exact absurd h4 (by simp [hi0])
                    · exact absurd h5 (by simp [hi0])
                    · exact absurd h6 (by simp [hi0])
                    · exact absurd h7 (by simp [hi0])
                    · exact absurd h8 (by simp [hi0])
                  · have h8f : slotSkipped procs current 8 = false := by simpa using h8
                    obtain ⟨q, hq, hqi, hqpid⟩ := slotSkipped_false procs current 8 h8f
                    refine ⟨8, q, by omega, by omega, hq, hqpid, ?_, ?_⟩
                    · rw [findNextProcess, findNextAux_cons_skip _ _ _ _ h1,
                        findNextAux_cons_skip _ _ _ _ h2, findNextAux_cons_skip _ _ _ _ h3,
                        findNextAux_cons_skip _ _ _ _ h4, findNextAux_cons_skip _ _ _ _ h5,
                        findNextAux_cons_skip _ _ _ _ h6, findNextAux_cons_skip _ _ _ _ h7,
                        findNextAux_cons_hit _ _ _ _ q hq hqi]
                    · intro jj hja hjb
                      interval_cases jj
                      exacts [skipped_idleOrNone _ _ _ h1, skipped_idleOrNone _ _ _ h2,
                        skipped_idleOrNone _ _ _ h3, skipped_idleOrNone _ _ _ h4,
                        skipped_idleOrNone _ _ _ h5, skipped_idleOrNone _ _ _ h6,
                        skipped_idleOrNone _ _ _ h7]
                · have hf : slotSkipped procs current 7 = false := by simpa using h7
                  obtain ⟨q, hq, hqi, hqpid⟩ := slotSkipped_false procs current 7 hf
                  refine ⟨7, q, by omega, by omega, hq, hqpid, ?_, ?_⟩
                  · rw [findNextProcess, findNextAux_cons_skip _ _ _ _ h1,
                      findNextAux_cons_skip _ _ _ _ h2, findNextAux_cons_skip _ _ _ _ h3,
                      findNextAux_cons_skip _ _ _ _ h4, findNextAux_cons_skip _ _ _ _ h5,
                      findNextAux_cons_skip _ _ _ _ h6,
                      findNextAux_cons_hit _ _ _ _ q hq hqi]
                  · intro jj hja hjb
                    interval_cases jj
                    exacts [skipped_idleOrNone _ _ _ h1, skipped_idleOrNone _ _ _ h2,
                      skipped_idleOrNone _ _ _ h3, skipped_idleOrNone _ _ _ h4,
                      skipped_idleOrNone _ _ _ h5, skipped_idleOrNone _ _ _ h6]
              · have hf : slotSkipped procs current 6 = false := by simpa using h6
                obtain ⟨q, hq, hqi, hqpid⟩ := slotSkipped_false procs current 6 hf
                refine ⟨6, q, by omega, by omega, hq, hqpid, ?_, ?_⟩
                · rw [findNextProcess, findNextAux_cons_skip _ _ _ _ h1,
                    findNextAux_cons_skip _ _ _ _ h2, findNextAux_cons_skip _ _ _ _ h3,
                    findNextAux_cons_skip _ _ _ _ h4, findNextAux_cons_skip _ _ _ _ h5,
                    findNextAux_cons_hit _ _ _ _ q hq hqi]
                · intro jj hja hjb
                  interval_cases jj
                  exacts [skipped_idleOrNone _ _ _ h1, skipped_idleOrNone _ _ _ h2,
                    skipped_idleOrNone _ _ _ h3, skipped_idleOrNone _ _ _ h4,
                    skipped_idleOrNone _ _ _ h5]
            · have hf : slotSkipped procs current 5 = false := by simpa using h5
              obtain ⟨q, hq, hqi, hqpid⟩ := slotSkipped_false procs current 5 hf
              refine ⟨5, q, by omega, by omega, hq, hqpid, ?_, ?_⟩
              · rw [findNextProcess, findNextAux_cons_skip _ _ _ _ h1,
                  findNextAux_cons_skip _ _ _ _ h2, findNextAux_cons_skip _ _ _ _ h3,
                  findNextAux_cons_skip _ _ _ _ h4,
                  findNextAux_cons_hit _ _ _ _ q hq hqi]
              · intro jj hja hjb
                interval_cases jj
                exacts [skipped_idleOrNone _ _ _ h1, skipped_idleOrNone _ _ _ h2,
                  skipped_idleOrNone _ _ _ h3, skipped_idleOrNone _ _ _ h4]
          · have hf : slotSkipped procs current 4 = false := by simpa using h4
            obtain ⟨q, hq, hqi, hqpid⟩ := slotSkipped_false procs current 4 hf
            refine ⟨4, q, by omega, by omega, hq, hqpid, ?_, ?_⟩
            · rw [findNextProcess, findNextAux_cons_skip _ _ _ _ h1,
                findNextAux_cons_skip _ _ _ _ h2, findNextAux_cons_skip _ _ _ _ h3,
                findNextAux_cons_hit _ _ _ _ q hq hqi]
            · intro jj hja hjb
              interval_cases jj
              exacts [skipped_idleOrNone _ _ _ h1, skipped_idleOrNone _ _ _ h2,
                skipped_idleOrNone _ _ _ h3]
        · have hf : slotSkipped procs current 3 = false := by simpa using h3
          obtain ⟨q, hq, hqi, hqpid⟩ := slotSkipped_false procs current 3 hf
          refine ⟨3, q, by omega, by omega, hq, hqpid, ?_, ?_⟩
          · rw [findNextProcess, findNextAux_cons_skip _ _ _ _ h1,
              findNextAux_cons_skip _ _ _ _ h2,
              findNextAux_cons_hit _ _ _ _ q hq hqi]
          · intro jj hja hjb
            interval_cases jj
            exacts [skipped_idleOrNone _ _ _ h1, skipped_idleOrNone _ _ _ h2]
      · have hf : slotSkipped procs current 2 = false := by simpa using h2
        obtain ⟨q, hq, hqi, hqpid⟩ := slotSkipped_false procs current 2 hf
        refine ⟨2, q, by omega, by omega, hq, hqpid, ?_, ?_⟩
        · rw [findNextProcess, findNextAux_cons_skip _ _ _ _ h1,
            findNextAux_cons_hit _ _ _ _ q hq hqi]
        · intro jj hja hjb
          interval_cases jj
          exact skipped_idleOrNone _ _ _ h1
    · have hf : slotSkipped procs current 1 = false := by simpa using h1
      obtain ⟨q, hq, hqi, hqpid⟩ := slotSkipped_false procs current 1 hf
      refine ⟨1, q, by omega, by omega, hq, hqpid, ?_, ?_⟩
      · rw [findNextProcess, findNextAux_cons_hit _ _ _ _ q hq hqi]
      · intro jj hja hjb
        omega
  · intro hall
    have hskip : ∀ i, slotSkipped procs current i = true := by
      intro i
      unfold slotSkipped
      cases hs : slotAt procs current i with
      | none => rfl
      | some p =>
        have hp0 : p.pid = 0 := hall _ p hs
        show p.isIdleProcess = true
        simp [Process.isIdleProcess, hp0]
    rw [findNextProcess, findNextAux_cons_skip _ _ _ _ (hskip 1),
      findNextAux_cons_skip _ _ _ _ (hskip 2), findNextAux_cons_skip _ _ _ _ (hskip 3),
      findNextAux_cons_skip _ _ _ _ (hskip 4), findNextAux_cons_skip _ _ _ _ (hskip 5),
      findNextAux_cons_skip _ _ _ _ (hskip 6), findNextAux_cons_skip _ _ _ _ (hskip 7),
      findNextAux_cons_skip _ _ _ _ (hskip 8)]
    rfl

/-- Counterexample for C3 as stated: on the table holding only the idle
process, find_next_process does not trivially choose the idle slot; it
reaches the unreachable branch and panics. -/
theorem c3_counterexample :
    findNextProcess procsIdleOnly 0 = .error "internal error: entered unreachable code" ∧
    ¬ ∃ p, findNextProcess procsIdleOnly 0 = .ok p := by
  have h : findNextProcess procsIdleOnly 0 =
      .error "internal error: entered unreachable code" := by rfl
  refine ⟨h, ?_⟩
  rintro ⟨p, hp⟩
  rw [h] at hp
  exact Except.noConfusion hp

/-- Witness for C3: on a table with the idle process and pid 1 the scan
from current = 0 returns the process in slot 1; on the idle-only table
the scan from current = 3 hits the unreachable branch. -/
theorem c3_witness :
    (∃ i p, 1 ≤ i ∧ i ≤ 8 ∧ slotAt c3ProcsW 0 i = some p ∧ p.pid ≠ 0 ∧
      findNextProcess c3ProcsW 0 = .ok p ∧
      (∀ j, 1 ≤ j → j < i → idleOrNone c3ProcsW 0 j)) ∧
    findNextProcess procsIdleOnly 3 = .error "internal error: entered unreachable code" := by
  constructor
  · exact (c3_find_next_round_robin c3ProcsW 0
      (fun p hp => by injection hp with h; rw [← h])).1
      ⟨1, ⟨1, 0, 0⟩, rfl, by decide⟩
  · refine (c3_find_next_round_robin procsIdleOnly 3
      (fun p hp => by injection hp with h; rw [← h])).2 ?_
    intro j p hp
    by_cases hj : j = 0
    · subst hj
      injection hp with h
      rw [← h]
    · simp [procsIdleOnly, hj] at hp

theorem ptake_eq_some (n : Nat) (input out rest : List Nat)
    (h : ptake n input = some (out, rest)) :
    n ≤ input.length ∧ out = input.take n ∧ rest = input.drop n := by
  unfold ptake at h
  split at h
  · simp only [Option.some.injEq, Prod.mk.injEq] at h
    exact ⟨by assumption, h.1.symm, h.2.symm⟩
  · exact absurd h (by simp)


theorem ptake_exact (n : Nat) (l1 l2 : List Nat) (h : l1.length = n) :
    ptake n (l1 ++ l2) = some (l1, l2) := by
  unfold ptake
  rw [if_pos (by simp [List.length_append]; omega)]
  rw [← h, List.take_left, List.drop_left]

theorem pmanyTill_stop {α β : Type} (p : BParse α) (q : BParse β) (fuel : Nat)
    (input rest : List Nat) (b : β) (hq : q input = some (b, rest)) :
    pmanyTill p q (fuel + 1) input = some (([], b), rest) := by
  unfold pmanyTill
  rw [hq]

theorem pmanyTill_step_cons {α β : Type} (p : BParse α) (q : BParse β) (fuel : Nat)
    (input rest rest2 : List Nat) (a : α) (as : List α) (b : β)
    (hq : q input = none) (hp : p input = some (a, rest))
    (hrec : pmanyTill p q fuel rest = some ((as, b), rest2)) :
    pmanyTill p q (fuel + 1) input = some ((a :: as, b), rest2) := by
  unfold pmanyTill
  rw [hq, hp]
  simp only [hrec]

theorem singleTarHeader_len : singleTarHeader.length = 512 := by decide

theorem headerBlockP_eval :
    headerBlockP singleTarHeader = some (TarHeader.mk helloName 7, List.replicate 14 0) := by
  decide

theorem tarHeaderP_eval :
    tarHeaderP singleTarArchive =
      some (TarHeader.mk helloName 7,
        (helloData ++ List.replicate 505 0) ++ List.replicate 1024 0) := by
  unfold tarHeaderP pmapParser singleTarArchive
  rw [List.append_assoc, ptake_exact 512 singleTarHeader _ singleTarHeader_len]
  simp only [headerBlockP_eval]

theorem fileDataP_eval :
    fileDataP (TarHeader.mk helloName 7)
      ((helloData ++ List.replicate 505 0) ++ List.replicate 1024 0) =
    some (FileRef.mk (TarHeader.mk helloName 7) helloData, List.replicate 1024 0) := by
  simp only [fileDataP, pmap, blocksP]
  rw [ptake_exact _ (helloData ++ List.replicate 505 0) (List.replicate 1024 0) (by decide)]
  decide

theorem fileRefP_eval :
    fileRefP singleTarArchive =
      some (FileRef.mk (TarHeader.mk helloName 7) helloData, List.replicate 1024 0) := by
  unfold fileRefP pbind
  rw [tarHeaderP_eval]
  simp only [fileDataP_eval]

theorem zeroBlockP_archive : zeroBlockP singleTarArchive = none := by decide

theorem zeroBlockP_zeros : zeroBlockP (List.replicate 1024 0) = some ((), []) := by decide

theorem singleTarArchive_len : singleTarArchive.length = 2048 := by
  simp [singleTarArchive, singleTarHeader, helloName, helloData,
    List.length_append, List.length_replicate]

/-- C9: the TAR parser consumes file records until the double zero
block, each record being one 512-byte header block plus
ceil(file_size / 512) data blocks, and the concrete single-file archive
holding ./hello.txt with content "Hello!\n" parses to exactly one entry
with that name and exactly those 7 data bytes. -/
theorem c9_tar_single_file_parse :
    tarFileP singleTarArchive =
      some ([FileRef.mk (TarHeader.mk helloName 7) helloData], []) ∧
    (∀ input f rest, fileRefP input = some (f, rest) →
      512 + 512 * ((f.header.fileSize + 511) / 512) ≤ input.length ∧
      rest = input.drop (512 + 512 * ((f.header.fileSize + 511) / 512))) := by
  constructor
  · have hrec : pmanyTill fileRefP zeroBlockP 2048 (List.replicate 1024 0) =
        some (([], ()), []) :=
      pmanyTill_stop fileRefP zeroBlockP 2047 _ _ _ zeroBlockP_zeros
    have hmain : pmanyTill fileRefP zeroBlockP (singleTarArchive.length + 1) singleTarArchive =
        some (([FileRef.mk (TarHeader.mk helloName 7) helloData], ()), []) := by
      rw [singleTarArchive_len]
      exact pmanyTill_step_cons fileRefP zeroBlockP 2048 _ _ _ _ _ _
        zeroBlockP_archive fileRefP_eval hrec
    unfold tarFileP
    rw [hmain]
  · intro input f rest h
    unfold fileRefP pbind at h
    cases ht : tarHeaderP input with
    | none => rw [ht] at h; exact absurd h (by simp)
    | some pr =>
      obtain ⟨hd, rest1⟩ := pr
      rw [ht] at h
      simp only [] at h
      have houter : ∃ slice, ptake 512 input = some (slice, rest1) := by
        unfold tarHeaderP pmapParser at ht
        cases hs : ptake 512 input with
        | none => rw [hs] at ht; exact absurd ht (by simp)
        | some pr2 =>
          obtain ⟨slice, r2⟩ := pr2
          rw [hs] at ht
          cases hi : headerBlockP slice with
          | none => simp [hi] at ht
          | some pr3 =>
            obtain ⟨a3, r3⟩ := pr3
            simp only [hi, Option.some.injEq, Prod.mk.injEq] at ht
            exact ⟨slice, by rw [ht.2]⟩
      obtain ⟨slice, hsl⟩ := houter
      obtain ⟨hlen1, _, hrest1⟩ := ptake_eq_some 512 input slice rest1 hsl
      unfold fileDataP pmap blocksP at h
      cases hb : ptake ((hd.fileSize / 512 + if hd.fileSize % 512 != 0 then 1 else 0) * 512)
          rest1 with
      | none =>
        simp only [hb] at h
        exact absurd h (by simp)
      | some pr4 =>
        obtain ⟨data, r4⟩ := pr4
        simp only [hb, Option.some.injEq, Prod.mk.injEq] at h
        obtain ⟨hf, hr⟩ := h
        obtain ⟨hlen2, _, hdrop2⟩ := ptake_eq_some _ rest1 data r4 hb
        have hceil : (hd.fileSize / 512 + if hd.fileSize % 512 != 0 then 1 else 0) * 512 =
            512 * ((hd.fileSize + 511) / 512) := by
          by_cases hz : hd.fileSize % 512 = 0
          · rw [if_neg (by simp [hz] : ¬((hd.fileSize % 512 != 0) = true))]
            omega
          · rw [if_pos (by simpa using hz : (hd.fileSize % 512 != 0) = true)]
            omega
        have hhead : f.header = hd := by rw [← hf]
        rw [hrest1] at hdrop2 hlen2
        rw [List.length_drop] at hlen2
        constructor
        · rw [hhead, ← hceil]
          omega
        · rw [← hr, hdrop2, List.drop_drop, hhead, ← hceil]

/-- Witness for C9: the single-file record spans 1024 bytes (header
block plus one data block) of the 2048-byte archive, leaving the two
zero blocks. -/
theorem c9_witness :
    1024 ≤ singleTarArchive.length ∧
    List.replicate 1024 0 = singleTarArchive.drop 1024 :=
  c9_tar_single_file_parse.2 singleTarArchive
    (FileRef.mk (TarHeader.mk helloName 7) helloData) (List.replicate 1024 0) fileRefP_eval

theorem ptIndex_lt (v l : Nat) : ptIndex v l < 512 :=
  Nat.lt_succ_of_le (Nat.and_le_right)

theorem store8_load_eq (m : Mem) (a v : Nat) : (store8 m a v).load a = v := by
  simp [store8]

theorem store8_load_ne (m : Mem) (a v b : Nat) (h : b ≠ a) :
    (store8 m a v).load b = m.load b := by
  simp [store8, h]

theorem store8_next (m : Mem) (a v : Nat) : (store8 m a v).next = m.next := rfl

theorem store8_memEnd (m : Mem) (a v : Nat) : (store8 m a v).memEnd = m.memEnd := rfl

theorem allocMem_load_lo (m : Mem) (b : Nat) (h : b < m.next) :
    (allocMem m).load b = m.load b := by
  unfold allocMem
  simp only
  rw [if_neg (by omega)]

theorem allocMem_load_in (m : Mem) (b : Nat) (h1 : m.next ≤ b) (h2 : b < m.next + 4096) :
    (allocMem m).load b = 0 := by
  unfold allocMem
  simp only
  rw [if_pos ⟨h1, h2⟩]

theorem allocZeroedPage_eq (m : Mem) (ha : m.next % 4096 = 0)
    (hs : m.next + 4096 ≤ m.memEnd) :
    allocZeroedPage m = .ok (allocMem m, m.next) := by
  unfold allocZeroedPage
  have hnm : nextMultipleOf m.next 4096 = m.next := by
    unfold nextMultipleOf
    omega
  rw [hnm, if_pos hs]

theorem shiftRight_lor_distrib (x y n : Nat) : (x ||| y) >>> n = (x >>> n) ||| (y >>> n) := by
  apply Nat.eq_of_testBit_eq
  intro i
  simp [Nat.testBit_shiftRight, Nat.testBit_lor]

theorem small_shiftRight_ten (b : Nat) (h : b < 1024) : b >>> 10 = 0 := by
  rw [Nat.shiftRight_eq_div_pow]
  norm_num
  omega

theorem pte_shiftRight10 (pa fl : Nat) (hfl : fl < 1024) :
    (((pa >>> 12) <<< 10) ||| fl) >>> 10 = pa >>> 12 := by
  rw [shiftRight_lor_distrib, Nat.shiftLeft_shiftRight, small_shiftRight_ten fl hfl]
  simp

theorem intoPaddr_roundtrip (t fl : Nat) (hfl : fl < 1024) (ht : t % 4096 = 0) :
    pteIntoPaddr (((t >>> 12) <<< 10) ||| fl) = t := by
  unfold pteIntoPaddr
  rw [pte_shiftRight10 t fl hfl, Nat.shiftLeft_eq, Nat.shiftRight_eq_div_pow]
  norm_num
  omega

theorem and_two_pow_ne_zero (x i : Nat) : ((x &&& (1 <<< i)) != 0) = x.testBit i := by
  have h1 : (1 : Nat) <<< i = 2 ^ i := by rw [Nat.shiftLeft_eq, one_mul]
  rw [h1, Nat.and_two_pow]
  cases hx : x.testBit i
  · simp
  · simp [Nat.pos_iff_ne_zero, Nat.two_pow_pos]

theorem testBit_pte_low (pa fl i : Nat) (hi : i < 10) :
    (((pa >>> 12) <<< 10) ||| fl).testBit i = fl.testBit i := by
  simp only [Nat.testBit_lor, Nat.testBit_shiftLeft]
  have hne : ¬ (10 ≤ i) := by omega
  simp [hne]

theorem flagBits (f : PageFlags) :
    (f.asRaw ||| (1 <<< 0)).testBit 0 = true ∧
    (f.asRaw ||| (1 <<< 0)).testBit 1 = f.read ∧
    (f.asRaw ||| (1 <<< 0)).testBit 2 = f.write ∧
    (f.asRaw ||| (1 <<< 0)).testBit 3 = f.execute ∧
    (f.asRaw ||| (1 <<< 0)).testBit 4 = f.user ∧
    (f.asRaw ||| (1 <<< 0)) < 1024 := by
  obtain ⟨r, w, x, u⟩ := f
  cases r <;> cases w <;> cases x <;> cases u <;> decide

theorem leafValueProps (pa : Nat) (f : PageFlags) (hpa : pa < 72057594037927936) :
    pteValid (pteSetValid (pteFromPaddr pa ||| f.asRaw)) = true ∧
    ((pteSetValid (pteFromPaddr pa ||| f.asRaw)) >>> 10) &&& 17592186044415 = pa >>> 12 ∧
    pteRead (pteSetValid (pteFromPaddr pa ||| f.asRaw)) = f.read ∧
    pteWrite (pteSetValid (pteFromPaddr pa ||| f.asRaw)) = f.write ∧
    pteX (pteSetValid (pteFromPaddr pa ||| f.asRaw)) = f.execute ∧
    pteU (pteSetValid (pteFromPaddr pa ||| f.asRaw)) = f.user := by
  obtain ⟨hb0, hb1, hb2, hb3, hb4, hlt⟩ := flagBits f
  have hassoc : pteSetValid (pteFromPaddr pa ||| f.asRaw) =
      ((pa >>> 12) <<< 10) ||| (f.asRaw ||| (1 <<< 0)) := by
    unfold pteSetValid pteFromPaddr
    rw [Nat.lor_assoc]
  refine ⟨?_, ?_, ?_, ?_, ?_, ?_⟩
  · unfold pteValid
    rw [hassoc, and_two_pow_ne_zero, testBit_pte_low _ _ 0 (by omega), hb0]
  · rw [hassoc, pte_shiftRight10 _ _ hlt,
      show (17592186044415 : Nat) = 2 ^ 44 - 1 from by norm_num,
      Nat.and_pow_two_sub_one_eq_mod]
    apply Nat.mod_eq_of_lt
    rw [Nat.shiftRight_eq_div_pow]
    norm_num
    omega
  · unfold pteRead
    rw [hassoc, and_two_pow_ne_zero, testBit_pte_low _ _ 1 (by omega), hb1]
  · unfold pteWrite
    rw [hassoc, and_two_pow_ne_zero, testBit_pte_low _ _ 2 (by omega), hb2]
  · unfold pteX
    rw [hassoc, and_two_pow_ne_zero, testBit_pte_low _ _ 3 (by omega), hb3]
  · unfold pteU
    rw [hassoc, and_two_pow_ne_zero, testBit_pte_low _ _ 4 (by omega), hb4]

theorem pteValid_setValid (x : Nat) : pteValid (pteSetValid x) = true := by
  unfold pteValid pteSetValid
  rw [and_two_pow_ne_zero]
  simp [Nat.testBit_lor]

theorem intoPaddr_setValid_fromPaddr (t : Nat) (ht : t % 4096 = 0) :
    pteIntoPaddr (pteSetValid (pteFromPaddr t)) = t := by
  unfold pteSetValid pteFromPaddr
  have h1 : (1 : Nat) <<< 0 = 1 := rfl
  rw [h1]
  exact intoPaddr_roundtrip t 1 (by omega) ht

theorem pteValid_zero : pteValid 0 = false := rfl

theorem walkLoop_nil (m : Mem) (pt v : Nat) (al : Bool) :
    walkLoop m pt v al [] = .ok (some (m, pt)) := rfl

theorem walkLoop_cons_valid (m : Mem) (pt v : Nat) (al : Bool) (l : Nat) (rest : List Nat)
    (h : pteValid (m.load (pt + 8 * ptIndex v l)) = true) :
    walkLoop m pt v al (l :: rest) =
      walkLoop m (pteIntoPaddr (m.load (pt + 8 * ptIndex v l))) v al rest := by
  simp only [walkLoop, h, if_true]

theorem walkLoop_cons_invalid_noalloc (m : Mem) (pt v : Nat) (l : Nat) (rest : List Nat)
    (h : pteValid (m.load (pt + 8 * ptIndex v l)) = false) :
    walkLoop m pt v false (l :: rest) = .ok none := by
  simp only [walkLoop, h, Bool.false_eq_true, if_false]

theorem walkLoop_cons_invalid_alloc (m : Mem) (pt v : Nat) (l : Nat) (rest : List Nat)
    (h : pteValid (m.load (pt + 8 * ptIndex v l)) = false)
    (ha : m.next % 4096 = 0) (hs : m.next + 4096 ≤ m.memEnd) :
    walkLoop m pt v true (l :: rest) =
      walkLoop (store8 (allocMem m) (pt + 8 * ptIndex v l)
        (pteSetValid (pteFromPaddr m.next))) m.next v true rest := by
  simp only [walkLoop, h, Bool.false_eq_true, if_false, if_true, allocZeroedPage_eq m ha hs]

theorem walkLoop_false_imp_true (v : Nat) (l : List Nat) :
    ∀ (m m2 : Mem) (pt pt2 : Nat), walkLoop m pt v false l = .ok (some (m2, pt2)) →
      m2 = m ∧ walkLoop m pt v true l = .ok (some (m2, pt2)) := by
  induction l with
  | nil =>
    intro m m2 pt pt2 h
    rw [walkLoop_nil] at h
    simp only [Except.ok.injEq, Option.some.injEq, Prod.mk.injEq] at h
    refine ⟨h.1.symm, ?_⟩
    rw [walkLoop_nil, h.1, h.2]
  | cons l0 rest ih =>
    intro m m2 pt pt2 h
    cases hv : pteValid (m.load (pt + 8 * ptIndex v l0)) with
    | true =>
      rw [walkLoop_cons_valid m pt v false l0 rest hv] at h
      obtain ⟨hm, hw⟩ := ih m m2 _ pt2 h
      exact ⟨hm, by rw [walkLoop_cons_valid m pt v true l0 rest hv]; exact hw⟩
    | false =>
      rw [walkLoop_cons_invalid_noalloc m pt v l0 rest hv] at h
      exact absurd h (by simp)

theorem walk_false_imp_true (m m2 : Mem) (root v leaf : Nat)
    (h : walk m root v false = .ok (some (m2, leaf))) :
    m2 = m ∧ walk m root v true = .ok (some (m2, leaf)) := by
  unfold walk at h ⊢
  cases hw : walkLoop m root v false [2, 1] with
  | error e => rw [hw] at h; exact absurd h (by simp)
  | ok o =>
    cases o with
    | none => rw [hw] at h; exact absurd h (by simp)
    | some pr =>
      obtain ⟨mw, ptw⟩ := pr
      rw [hw] at h
      simp only [Except.ok.injEq, Option.some.injEq, Prod.mk.injEq] at h
      obtain ⟨hm2, hleaf⟩ := h
      obtain ⟨hmeq, hwt⟩ := walkLoop_false_imp_true v [2, 1] m mw root ptw hw
      refine ⟨by rw [← hm2]; exact hmeq, ?_⟩
      rw [hwt]
      simp only [Except.ok.injEq, Option.some.injEq, Prod.mk.injEq]
      exact ⟨hm2, hleaf⟩

theorem allocMem_next (m : Mem) : (allocMem m).next = m.next + 4096 := rfl

theorem allocMem_memEnd (m : Mem) : (allocMem m).memEnd = m.memEnd := rfl

theorem walkLoop_cons_load (m : Mem) (pt v : Nat) (al : Bool) (l : Nat) (rest : List Nat)
    (w : Nat) (hw : m.load (pt + 8 * ptIndex v l) = w) (hv : pteValid w = true) :
    walkLoop m pt v al (l :: rest) = walkLoop m (pteIntoPaddr w) v al rest := by
  simp only [walkLoop, hw, hv, if_true]

theorem mapPage_core (m : Mem) (root vaddr paddr : Nat) (f : PageFlags)
    (hInv : PTInv m root)
    (hva : vaddr &&& 0xFFF = 0)
    (hpa : paddr % 4096 = 0)
    (hspace : m.next + 8192 ≤ m.memEnd)
    (hun : ¬ IsMappedLeafValid m root vaddr) :
    ∃ m2 leaf, mapPage m root vaddr paddr f = .ok m2 ∧
      walk m2 root vaddr false = .ok (some (m2, leaf)) ∧
      m2.load leaf = pteSetValid (pteFromPaddr paddr ||| f.asRaw) := by
  obtain ⟨hra, hrb, hna, hfz, htab⟩ := hInv
  have hi2 : ptIndex vaddr 2 < 512 := ptIndex_lt _ _
  have hi1 : ptIndex vaddr 1 < 512 := ptIndex_lt _ _
  have hi0 : ptIndex vaddr 0 < 512 := ptIndex_lt _ _
  have hcond1 : ¬ ((vaddr &&& 0xFFF != 0) = true) := by simp [hva]
  have hcond2 : ¬ ((paddr % 4096 != 0) = true) := by simp [hpa]
  have hsp1 : m.next + 4096 ≤ m.memEnd := by omega
  cases hv2 : pteValid (m.load (root + 8 * ptIndex vaddr 2)) with
  | false =>
    -- Both lower-level tables are freshly allocated, at m.next and at
    -- m.next + 4096.
    refine ⟨store8 (store8 (allocMem (store8 (allocMem m) (root + 8 * ptIndex vaddr 2)
        (pteSetValid (pteFromPaddr m.next)))) (m.next + 8 * ptIndex vaddr 1)
        (pteSetValid (pteFromPaddr (m.next + 4096))))
      (m.next + 4096 + 8 * ptIndex vaddr 0) (pteSetValid (pteFromPaddr paddr ||| f.asRaw)),
      m.next + 4096 + 8 * ptIndex vaddr 0, ?_, ?_, ?_⟩
    · unfold mapPage walk
      rw [if_neg hcond1, if_neg hcond2]
      rw [walkLoop_cons_invalid_alloc m root vaddr 2 [1] hv2 hna hsp1]
      rw [walkLoop_cons_invalid_alloc _ _ _ _ _
        (by
          rw [store8_load_ne _ _ _ _ (by omega)]
          rw [allocMem_load_in m _ (by omega) (by omega)]
          rfl)
        (by simp only [store8_next, allocMem_next]; omega)
        (by simp only [store8_next, store8_memEnd, allocMem_next, allocMem_memEnd]; omega)]
      rw [walkLoop_nil]
      simp only [store8_next, allocMem_next]
      rw [store8_load_ne _ _ _ _ (by omega)]
      rw [allocMem_load_in _ _ (by simp only [store8_next, allocMem_next]; omega)
        (by simp only [store8_next, allocMem_next]; omega)]
      simp only [pteValid_zero, Bool.false_eq_true, if_false]
    · unfold walk
      rw [walkLoop_cons_load _ _ _ _ _ _ (pteSetValid (pteFromPaddr m.next))
        (by
          rw [store8_load_ne _ _ _ _ (by omega)]
          rw [store8_load_ne _ _ _ _ (by omega)]
          rw [allocMem_load_lo _ _ (by simp only [store8_next, allocMem_next]; omega)]
          rw [store8_load_eq])
        (pteValid_setValid _)]
      rw [intoPaddr_setValid_fromPaddr m.next (by omega)]
      rw [walkLoop_cons_load _ _ _ _ _ _ (pteSetValid (pteFromPaddr (m.next + 4096)))
        (by
          rw [store8_load_ne _ _ _ _ (by omega)]
          rw [store8_load_eq])
        (pteValid_setValid _)]
      rw [intoPaddr_setValid_fromPaddr (m.next + 4096) (by omega)]
      rw [walkLoop_nil]
    · exact store8_load_eq _ _ _
  | true =>
    have hgood2 := htab (ptIndex vaddr 2) hi2 hv2
    obtain ⟨ht1al, ht1lo, ht1hi, htab1⟩ := hgood2
    cases hv1 : pteValid (m.load (pteIntoPaddr (m.load (root + 8 * ptIndex vaddr 2)) +
        8 * ptIndex vaddr 1)) with
    | false =>
      -- The level-0 table is freshly allocated at m.next.
      refine ⟨store8 (store8 (allocMem m)
        (pteIntoPaddr (m.load (root + 8 * ptIndex vaddr 2)) + 8 * ptIndex vaddr 1)
        (pteSetValid (pteFromPaddr m.next)))
        (m.next + 8 * ptIndex vaddr 0) (pteSetValid (pteFromPaddr paddr ||| f.asRaw)),
        m.next + 8 * ptIndex vaddr 0, ?_, ?_, ?_⟩
      · unfold mapPage walk
        rw [if_neg hcond1, if_neg hcond2]
        rw [walkLoop_cons_valid m root vaddr true 2 [1] hv2]
        rw [walkLoop_cons_invalid_alloc _ _ _ _ _ hv1 hna hsp1]
        rw [walkLoop_nil]
        simp only []
        rw [store8_load_ne _ _ _ _ (by omega)]
        rw [allocMem_load_in _ _ (by omega) (by omega)]
        simp only [pteValid_zero, Bool.false_eq_true, if_false]
      · unfold walk
        rw [walkLoop_cons_load _ _ _ _ _ _
          (m.load (root + 8 * ptIndex vaddr 2))
          (by
            rw [store8_load_ne _ _ _ _ (by omega)]
            rw [store8_load_ne _ _ _ _ (by omega)]
            exact allocMem_load_lo _ _ (by omega))
          hv2]
        rw [walkLoop_cons_load _ _ _ _ _ _ (pteSetValid (pteFromPaddr m.next))
          (by
            rw [store8_load_ne _ _ _ _ (by omega)]
            rw [store8_load_eq])
          (pteValid_setValid _)]
        rw [intoPaddr_setValid_fromPaddr m.next (by omega)]
        rw [walkLoop_nil]
      · exact store8_load_eq _ _ _
    | true =>
      -- Fully valid path: the walk allocates nothing.
      have hgood1 := htab1 (ptIndex vaddr 1) hi1 hv1
      obtain ⟨ht0al, ht0lo, ht0hi, _⟩ := hgood1
      have hwf : walk m root vaddr false = .ok (some (m,
          pteIntoPaddr (m.load (pteIntoPaddr (m.load (root + 8 * ptIndex vaddr 2)) +
            8 * ptIndex vaddr 1)) + 8 * ptIndex vaddr 0)) := by
        unfold walk
        rw [walkLoop_cons_valid m root vaddr false 2 [1] hv2]
        rw [walkLoop_cons_valid _ _ _ _ _ _ hv1]
        rw [walkLoop_nil]
      have hleafinv : pteValid (m.load
          (pteIntoPaddr (m.load (pteIntoPaddr (m.load (root + 8 * ptIndex vaddr 2)) +
            8 * ptIndex vaddr 1)) + 8 * ptIndex vaddr 0)) = false := by
        cases hlv : pteValid (m.load
            (pteIntoPaddr (m.load (pteIntoPaddr (m.load (root + 8 * ptIndex vaddr 2)) +
              8 * ptIndex vaddr 1)) + 8 * ptIndex vaddr 0)) with
        | false => rfl
        | true => exact absurd ⟨_, hwf, hlv⟩ hun
      have hwt := (walk_false_imp_true m m root vaddr _ hwf).2
      refine ⟨store8 m
        (pteIntoPaddr (m.load (pteIntoPaddr (m.load (root + 8 * ptIndex vaddr 2)) +
          8 * ptIndex vaddr 1)) + 8 * ptIndex vaddr 0)
        (pteSetValid (pteFromPaddr paddr ||| f.asRaw)),
        pteIntoPaddr (m.load (pteIntoPaddr (m.load (root + 8 * ptIndex vaddr 2)) +
          8 * ptIndex vaddr 1)) + 8 * ptIndex vaddr 0, ?_, ?_, ?_⟩
      · unfold mapPage
        rw [if_neg hcond1, if_neg hcond2, hwt]
        simp only [hleafinv, Bool.false_eq_true, if_false]
      · unfold walk
        rw [walkLoop_cons_load _ _ _ _ _ _
          (m.load (root + 8 * ptIndex vaddr 2))
          (store8_load_ne _ _ _ _ (by omega))
          hv2]
        rw [walkLoop_cons_load _ _ _ _ _ _
          (m.load (pteIntoPaddr (m.load (root + 8 * ptIndex vaddr 2)) + 8 * ptIndex vaddr 1))
          (store8_load_ne _ _ _ _ (by omega))
          hv1]
        rw [walkLoop_nil]
      · exact store8_load_eq _ _ _

theorem pagingMemW_inv : PTInv pagingMemW 4096 := by
  refine ⟨by decide, by decide, by decide, fun a ha => rfl, ?_⟩
  intro i hi hv
  have h0 : pagingMemW.load (4096 + 8 * i) = 0 := rfl
  rw [h0] at hv
  exact absurd hv (by decide)

theorem pagingMemW_unmapped : ¬ IsMappedLeafValid pagingMemW 4096 4096 := by
  rintro ⟨leaf, hw, _⟩
  have hnone : walk pagingMemW 4096 4096 false = .ok none := rfl
  rw [hnone] at hw
  injection hw with hw2
  exact Option.noConfusion hw2

/-- C2: from a well-formed page-table state with room in the heap,
map_page of page-aligned vaddr and paddr installs a mapping that a
subsequent allocation-free walk reads back: the leaf PTE is valid, its
extracted physical page number equals paddr >> 12, and its R/W/X/U bits
equal the four booleans of the flag set. -/
theorem c2_map_page_walk_roundtrip (m : Mem) (root vaddr paddr : Nat) (f : PageFlags)
    (hInv : PTInv m root)
    (hva : vaddr &&& 0xFFF = 0)
    (hpa : paddr % 4096 = 0)
    (hpab : paddr < 72057594037927936)
    (hspace : m.next + 8192 ≤ m.memEnd)
    (hun : ¬ IsMappedLeafValid m root vaddr) :
    ∃ m2 leaf, mapPage m root vaddr paddr f = .ok m2 ∧
      walk m2 root vaddr false = .ok (some (m2, leaf)) ∧
      pteValid (m2.load leaf) = true ∧
      ((m2.load leaf) >>> 10) &&& 17592186044415 = paddr >>> 12 ∧
      pteRead (m2.load leaf) = f.read ∧
      pteWrite (m2.load leaf) = f.write ∧
      pteX (m2.load leaf) = f.execute ∧
      pteU (m2.load leaf) = f.user := by
  obtain ⟨m2, leaf, hmap, hwalk, hload⟩ :=
    mapPage_core m root vaddr paddr f hInv hva hpa hspace hun
  obtain ⟨hv, hppn, hr, hw, hx, hu⟩ := leafValueProps paddr f hpab
  refine ⟨m2, leaf, hmap, hwalk, ?_, ?_, ?_, ?_, ?_, ?_⟩
  · rw [hload]; exact hv
  · rw [hload]; exact hppn
  · rw [hload]; exact hr
  · rw [hload]; exact hw
  · rw [hload]; exact hx
  · rw [hload]; exact hu

/-- Witness for C2 on the concrete paging state: mapping virtual page
4096 to physical page 20480 with flags RW+U and walking it back. -/
theorem c2_witness :
    ∃ m2 leaf, mapPage pagingMemW 4096 4096 20480 pagingFlagsW = .ok m2 ∧
      walk m2 4096 4096 false = .ok (some (m2, leaf)) ∧
      pteValid (m2.load leaf) = true ∧
      ((m2.load leaf) >>> 10) &&& 17592186044415 = 20480 >>> 12 ∧
      pteRead (m2.load leaf) = true ∧
      pteWrite (m2.load leaf) = true ∧
      pteX (m2.load leaf) = false ∧
      pteU (m2.load leaf) = true :=
  c2_map_page_walk_roundtrip pagingMemW 4096 4096 20480 pagingFlagsW pagingMemW_inv
    (by decide) (by decide) (by decide) (by decide) pagingMemW_unmapped

theorem mapPage_error_of_conditions (m : Mem) (root vaddr paddr : Nat) (f : PageFlags)
    (h : ¬ (vaddr &&& 0xFFF = 0) ∨ ¬ (paddr % 4096 = 0) ∨ IsMappedLeafValid m root vaddr) :
    ∃ e, mapPage m root vaddr paddr f = .error e := by
  rcases h with h | h | h
  · exact ⟨"Virtual address not page-aligned",
      by unfold mapPage; rw [if_pos (by simpa using h)]⟩
  · by_cases hva : vaddr &&& 0xFFF = 0
    · exact ⟨"Physical address not page-aligned",
        by unfold mapPage; rw [if_neg (by simpa using hva), if_pos (by simpa using h)]⟩
    · exact ⟨"Virtual address not page-aligned",
        by unfold mapPage; rw [if_pos (by simpa using hva)]⟩
  · by_cases hva : vaddr &&& 0xFFF = 0
    · by_cases hpa : paddr % 4096 = 0
      · obtain ⟨leaf, hwf, hlv⟩ := h
        have hwt := (walk_false_imp_true m m root vaddr leaf hwf).2
        refine ⟨"remap", ?_⟩
        unfold mapPage
        rw [if_neg (by simpa using hva), if_neg (by simpa using hpa), hwt]
        simp only [hlv, if_true]
      · exact ⟨"Physical address not page-aligned",
          by unfold mapPage; rw [if_neg (by simpa using hva), if_pos (by simpa using hpa)]⟩
    · exact ⟨"Virtual address not page-aligned",
        by unfold mapPage; rw [if_pos (by simpa using hva)]⟩

/-- C8 (amended): with a well-formed page table and free heap space,
map_page panics exactly when vaddr is not page-aligned, paddr is not
page-aligned, or the leaf is already valid (remap); when it returns
normally it has installed a valid leaf mapping.  Without free heap
space the allocator inside walk can additionally panic with
out-of-memory even when all of map_page's own preconditions hold, which
the counterexample exhibits. -/
theorem c8_map_page_panic_conditions (m : Mem) (root vaddr paddr : Nat) (f : PageFlags)
    (hInv : PTInv m root) (hspace : m.next + 8192 ≤ m.memEnd) :
    ((∃ e, mapPage m root vaddr paddr f = .error e) ↔
      (¬ (vaddr &&& 0xFFF = 0) ∨ ¬ (paddr % 4096 = 0) ∨ IsMappedLeafValid m root vaddr)) ∧
    (∀ m2, mapPage m root vaddr paddr f = .ok m2 →
      ∃ leaf, walk m2 root vaddr false = .ok (some (m2, leaf)) ∧
        pteValid (m2.load leaf) = true) := by
  constructor
  · constructor
    · rintro ⟨e, he⟩
      by_contra hcon
      push_neg at hcon
      obtain ⟨h1, h2, h3⟩ := hcon
      obtain ⟨m2, leaf, hmap, _, _⟩ := mapPage_core m root vaddr paddr f hInv h1 h2 hspace h3
      rw [hmap] at he
      exact Except.noConfusion he
    · exact mapPage_error_of_conditions m root vaddr paddr f
  · intro m2 hm2
    have hcon : ¬ (¬ (vaddr &&& 0xFFF = 0) ∨ ¬ (paddr % 4096 = 0) ∨
        IsMappedLeafValid m root vaddr) := by
      intro hc
      obtain ⟨e, he⟩ := mapPage_error_of_conditions m root vaddr paddr f hc
      rw [he] at hm2
      exact Except.noConfusion hm2
    push_neg at hcon
    obtain ⟨h1, h2, h3⟩ := hcon
    obtain ⟨m2x, leaf, hmap, hwalk, hload⟩ :=
      mapPage_core m root vaddr paddr f hInv h1 h2 hspace h3
    rw [hmap] at hm2
    injection hm2 with hm2e
    subst hm2e
    exact ⟨leaf, hwalk, by rw [hload]; exact pteValid_setValid _⟩

/-- Counterexample for C8 as stated: with the heap exhausted, map_page
panics with out-of-memory although vaddr and paddr are page-aligned and
the leaf is not previously mapped, so the listed preconditions are not
the only panic sources. -/
theorem c8_counterexample :
    ((0 : Nat) &&& 0xFFF = 0) ∧ ((4096 : Nat) % 4096 = 0) ∧
    ¬ IsMappedLeafValid pagingMemOOM 0 0 ∧
    mapPage pagingMemOOM 0 0 4096 pagingFlagsW = .error "Out of Memory!" := by
  refine ⟨by decide, by decide, ?_, by rfl⟩
  rintro ⟨leaf, hw, _⟩
  have hnone : walk pagingMemOOM 0 0 false = .ok none := rfl
  rw [hnone] at hw
  injection hw with hw2
  exact Option.noConfusion hw2

/-- Witness for C8 on the concrete paging state: the panic-condition
equivalence and the success property instantiated at an aligned,
unmapped address. -/
theorem c8_witness :
    ((∃ e, mapPage pagingMemW 4096 4096 20480 pagingFlagsW = .error e) ↔
      (¬ ((4096 : Nat) &&& 0xFFF = 0) ∨ ¬ ((20480 : Nat) % 4096 = 0) ∨
        IsMappedLeafValid pagingMemW 4096 4096)) ∧
    (∀ m2, mapPage pagingMemW 4096 4096 20480 pagingFlagsW = .ok m2 →
      ∃ leaf, walk m2 4096 4096 false = .ok (some (m2, leaf)) ∧
        pteValid (m2.load leaf) = true) :=
  c8_map_page_panic_conditions pagingMemW 4096 4096 20480 pagingFlagsW
    pagingMemW_inv (by decide)
